import Mathlib

/-!
Verification of the `Ubuntu_Requests.py` image fetcher.

The Python source is shallowly embedded below.  Pure string helpers
(`get_filename_from_url`, `safe_filename`, `os.path.splitext`,
`urllib.parse.urlparse`'s path extraction, `os.path.basename`) become Lean
functions on `String` / `List Char`.  The side-effecting fetch pipeline
(`fetch_image`) becomes a function from an explicit environment (outcome of
`os.makedirs`, the HTTP response or transport error, writability) and an
explicit directory state (a list of stored files) to an `Outcome` together
with the new directory state; Python exceptions are modelled with `Except`,
and the `try/except` wrapper of `fetch_image` converts every exception of the
body into a failure outcome.  The MD5 content hash is abstracted as a
parameter `md5 : Bytes → Nat`, since every property of interest is stated in
terms of hash equality only; likewise the two Unicode-table checks of
CPython `urlsplit` (`_checknetloc`, `_check_bracketed_host`) are abstracted
as the predicates of a `UnicodeData` parameter, consulted only where
CPython consults its tables.
-/

/-- Byte strings are modelled as lists of naturals. -/
abbrev Bytes := List Nat

/-! ### Decimal rendering of naturals (Python `str(counter)` in the f-string) -/

/-- Decimal digits of `n`, most significant first; embeds Python `str` on
nonnegative integers. -/
def natDigits (n : Nat) : List Char :=
  if _h : n < 10 then [Nat.digitChar n]
  else natDigits (n / 10) ++ [Nat.digitChar (n % 10)]
decreasing_by exact Nat.div_lt_self (by omega) (by omega)

/-- Decimal string of `n`. -/
def natToStr (n : Nat) : String :=
  ⟨natDigits n⟩

/-! ### `os.path.splitext` (posixpath) -/

/-- Python `str.rfind` for a single character: index of the last occurrence,
`-1` if absent. -/
def rfindIdx (l : List Char) (c : Char) : Int :=
  match l.reverse.findIdx? (fun d => d = c) with
  | none => -1
  | some i => (l.length : Int) - 1 - i

/-- Embeds `posixpath.splitext`: split at the last dot of the last path
segment, unless every character of the segment before that dot is a dot. -/
def splitext (p : String) : String × String :=
  let l := p.data
  let sepIndex := rfindIdx l '/'
  let dotIndex := rfindIdx l '.'
  if sepIndex < dotIndex then
    let start := (sepIndex + 1).toNat
    let stop := dotIndex.toNat
    if ((l.drop start).take (stop - start)).any (fun c => c != '.') then
      (⟨l.take stop⟩, ⟨l.drop stop⟩)
    else (p, "")
  else (p, "")

/-! ### `safe_filename` (CollisionAvoider) -/

/-- The candidate filename `f"{name}_{counter}{ext}"` built by the probing
loop of `safe_filename`. -/
def candName (stem : String) (counter : Nat) (ext : String) : String :=
  stem ++ "_" ++ natToStr counter ++ ext

/-- The `while True` probing loop of `safe_filename`: return the first
candidate `stem_counter ext` not present in the directory.  The loop of the
source has no fuel; the fuel argument makes the recursion structural, and
`probeFrom_spec` below shows that fuel `|directory| + 1` is never exhausted,
so the base case is unreachable. -/
def probeFrom (dirNames : List String) (stem ext : String) : Nat → Nat → String
  | counter, 0 => candName stem counter ext
  | counter, fuel + 1 =>
    let c := candName stem counter ext
    if c ∈ dirNames then probeFrom dirNames stem ext (counter + 1) fuel else c

/-- Embeds `safe_filename(directory, filename)`.  The directory is modelled
by the list of names of its entries; `Path(directory)/filename).exists()`
becomes membership in that list. -/
def safe_filename (dirNames : List String) (filename : String) : String :=
  if filename ∈ dirNames then
    let se := splitext filename
    probeFrom dirNames se.1 se.2 1 (dirNames.length + 1)
  else filename

/-! ### `urllib.parse.urlparse(url).path` and `os.path.basename` -/

/-- Characters allowed in a URL scheme (`urllib.parse.scheme_chars`). -/
def schemeChars : String :=
  "abcdefghijklmnopqrstuvwxyzABCDEFGHIJKLMNOPQRSTUVWXYZ0123456789+-."

/-- The schemes for which `urlparse` splits `;`-parameters off the last
path segment (`urllib.parse.uses_params`, CPython 3.11). -/
def usesParams : List String :=
  ["", "ftp", "hdl", "prospero", "http", "imap", "https", "shttp", "rtsp",
   "rtsps", "rtspu", "sip", "sips", "mms", "sftp", "tel"]

/-- The two checks of CPython `urlsplit` whose verdicts depend on Unicode
tables not reproduced here; they are abstracted as predicates, exactly as
the MD5 hash is abstracted as a function.  `nfkcBad netloc` is the
rejection test of `_checknetloc` on a non-ASCII netloc: true iff NFKC
normalization of the netloc with `@:#?` removed changes it and the normal
form contains one of `/?#@:`.  `bracketHostOk host` is the acceptance test
of `_check_bracketed_host`: true iff the bracketed host is a valid IPv6 or
IPvFuture address.  They are consulted exactly where CPython consults its
tables: `nfkcBad` only on non-empty non-ASCII netlocs, `bracketHostOk` only
on bracketed ones, so on ASCII bracket-free netlocs the model is exact for
every instantiation. -/
structure UnicodeData where
  nfkcBad : List Char → Bool
  bracketHostOk : List Char → Bool

/-- CPython `urlsplit` first lstrips WHATWG C0-control and space characters
(code points up to 0x20) from the URL and then removes ASCII tab, carriage
return and newline everywhere. -/
def sanitizeUrl (url : String) : List Char :=
  (url.data.dropWhile (fun c => c.toNat ≤ 0x20)).filter
    (fun c => c != '\t' && c != '\r' && c != '\n')

/-- Scheme recognition of CPython `urlsplit`: if the first `:` sits at a
positive position, the first character is an ASCII letter and every
character before the colon is a scheme character, the scheme is split off
and lowercased; otherwise the scheme is the empty default. -/
def splitScheme (l : List Char) : String × List Char :=
  match l.findIdx? (fun c => c = ':') with
  | none => ("", l)
  | some i =>
    if 0 < i ∧ (l.headD ' ').isAlpha = true ∧
        (l.take i).all (fun c => schemeChars.data.contains c) = true then
      (⟨(l.take i).map Char.toLower⟩, l.drop (i + 1))
    else ("", l)

/-- Netloc extraction of CPython `urlsplit`: after a leading `//` the
netloc runs to the first `/`, `?` or `#`.  A `[` without `]` (or the
converse) raises `ValueError("Invalid IPv6 URL")`; a bracketed host is
then validated by `_check_bracketed_host`, and a non-empty non-ASCII
netloc by `_checknetloc`, both verdicts taken from `U`.  (`_checknetloc`
runs after the query/fragment split in CPython, but nothing in between can
raise, so raising it here is observationally equivalent; without a leading
`//` the netloc is empty and `_checknetloc` accepts it.) -/
def splitNetloc (U : UnicodeData) (l : List Char) : Except String (List Char) :=
  match l with
  | '/' :: '/' :: rest =>
    let netloc := rest.takeWhile (fun c => c != '/' && c != '?' && c != '#')
    let rem := rest.dropWhile (fun c => c != '/' && c != '?' && c != '#')
    if ('[' ∈ netloc ∧ ']' ∉ netloc) ∨ (']' ∈ netloc ∧ '[' ∉ netloc) then
      .error "Invalid IPv6 URL"
    else if ('[' ∈ netloc ∧ ']' ∈ netloc) ∧
        U.bracketHostOk (((netloc.dropWhile (fun c => c != '[')).drop 1).takeWhile
          (fun c => c != ']')) = false then
      .error "invalid bracketed host"
    else if netloc ≠ [] ∧ netloc.all (fun c => c.toNat < 128) = false ∧
        U.nfkcBad netloc = true then
      .error "netloc contains invalid characters under NFKC normalization"
    else .ok rem
  | _ => .ok l

/-- Parameter removal of `urlparse` (`_splitparams`): drop everything from
the first `;` of the last path segment on. -/
def splitParams (l : List Char) : List Char :=
  if '/' ∈ l then
    let segLen := (l.reverse.takeWhile (fun c => c != '/')).length
    let pre := l.take (l.length - segLen)
    let seg := l.drop (l.length - segLen)
    pre ++ seg.takeWhile (fun c => c != ';')
  else l.takeWhile (fun c => c != ';')

/-- Embeds `urllib.parse.urlparse(url).path` (CPython 3.11): sanitize,
split off scheme and netloc, drop fragment and query, and split
`;`-parameters only when the (lowercased) scheme is in `uses_params` and
the path contains a `;`.  Fallible: `urlparse` raises `ValueError` on a
netloc with mismatched square brackets, an invalid bracketed host, or a
non-ASCII netloc rejected under NFKC normalization. -/
def urlparsePath (U : UnicodeData) (url : String) : Except String String :=
  let l₀ := sanitizeUrl url
  let sl := splitScheme l₀
  match splitNetloc U sl.2 with
  | .error e => .error e
  | .ok l₂ =>
    let l₃ := l₂.takeWhile (fun c => c != '#')
    let path := l₃.takeWhile (fun c => c != '?')
    if usesParams.contains sl.1 = true ∧ ';' ∈ path then .ok ⟨splitParams path⟩
    else .ok ⟨path⟩

/-- Embeds `os.path.basename` (posixpath): everything after the last `/`. -/
def basename (p : String) : String :=
  ⟨(p.data.reverse.takeWhile (fun c => c != '/')).reverse⟩

/-- Embeds `get_filename_from_url`.  Fallible because `urlparse` is. -/
def get_filename_from_url (U : UnicodeData) (url : String) : Except String String :=
  match urlparsePath U url with
  | .error e => .error e
  | .ok path =>
    let filename := basename path
    if filename = "" ∨ filename.data.contains '.' = false then
      .ok "downloaded_image.jpg"
    else .ok filename

/-! ### The fetch pipeline -/

/-- Embeds Python `str.startswith`. -/
def strStartsWith (s pre : String) : Bool :=
  pre.data.isPrefixOf s.data

/-- An HTTP response: status code, optional `Content-Type` header, body. -/
structure HttpResponse where
  status : Nat
  contentType : Option String
  content : Bytes
deriving DecidableEq

deriving instance DecidableEq for Except

/-- The environment of one `fetch_image` call: whether `os.makedirs`
succeeds, the result of `requests.get` (a transport error or a response),
and whether the final `open`/`write` succeeds. -/
structure Env where
  makedirsOk : Bool
  response : Except String HttpResponse
  writeOk : Bool
deriving DecidableEq

/-- A regular file stored in the target directory: its name, its byte
content, and (if unreadable) the message of the `OSError` raised when the
duplicate scan opens it. -/
structure FileEntry where
  name : String
  content : Bytes
  readErr : Option String
deriving DecidableEq

/-- Python exceptions reaching the `try/except` of `fetch_image`, split as
its two handlers do: `requests.exceptions.RequestException` versus every
other `Exception`. -/
inductive PyExc where
  | requestException (msg : String)
  | otherException (msg : String)
deriving DecidableEq

/-- The terminal outcome of one fetch, one constructor per `print` of the
source: saved, skipped (not an image), skipped (duplicate), connection
error, unexpected error. -/
inductive Outcome where
  | saved (filename : String)
  | skippedNotImage (url contentType : String)
  | skippedDuplicate (filename : String)
  | connectionError (url msg : String)
  | unexpectedError (msg : String)
deriving DecidableEq

/-- The duplicate-detection loop of `fetch_image`: compare the hash of the
fetched bytes with the hash of every existing file, in directory order.
Opening an unreadable file raises, which this embedding returns as
`.error`. -/
def scanForDuplicate (md5 : Bytes → Nat) (fileHash : Nat) :
    List FileEntry → Except PyExc Bool
  | [] => .ok false
  | e :: rest =>
    match e.readErr with
    | some msg => .error (.otherException msg)
    | none =>
      if fileHash = md5 e.content then .ok true
      else scanForDuplicate md5 fileHash rest

/-- The body of the `try:` block of `fetch_image`, before exception
handling: either an exception or an outcome together with the new directory
contents. -/
def fetch_image_body (md5 : Bytes → Nat) (U : UnicodeData) (env : Env)
    (url : String) (dir : List FileEntry) : Except PyExc (Outcome × List FileEntry) :=
  if env.makedirsOk = false then .error (.otherException "makedirs failed")
  else
    match env.response with
    | .error msg => .error (.requestException msg)
    | .ok r =>
      if 400 ≤ r.status ∧ r.status < 600 then
        .error (.requestException ("HTTP error for " ++ url))
      else
        let contentType := r.contentType.getD ""
        if strStartsWith contentType "image/" = false then
          .ok (.skippedNotImage url contentType, dir)
        else
          match get_filename_from_url U url with
          | .error msg => .error (.otherException msg)
          | .ok fname₀ =>
            let fname := safe_filename (dir.map (fun e => e.name)) fname₀
            let fileHash := md5 r.content
            match scanForDuplicate md5 fileHash dir with
            | .error e => .error e
            | .ok true => .ok (.skippedDuplicate fname, dir)
            | .ok false =>
              if env.writeOk = false then
                .error (.otherException "write failed")
              else
                .ok (.saved fname, dir ++ [⟨fname, r.content, none⟩])

/-- Embeds `fetch_image`: the `try/except` wrapper around the body.  Every
`RequestException` becomes the connection-error outcome, every other
exception the unexpected-error outcome; in both cases the directory is
unchanged. -/
def fetch_image (md5 : Bytes → Nat) (U : UnicodeData) (env : Env)
    (url : String) (dir : List FileEntry) : Outcome × List FileEntry :=
  match fetch_image_body md5 U env url dir with
  | .ok res => res
  | .error (.requestException msg) => (.connectionError url msg, dir)
  | .error (.otherException msg) => (.unexpectedError msg, dir)

/-! ### The CLI driver (`main`) -/

/-- The code points of the characters Python `str.isspace` accepts
(CPython 3.11); `str.strip()` removes exactly these. -/
def pySpaceCodes : List Nat :=
  [0x09, 0x0a, 0x0b, 0x0c, 0x0d, 0x1c, 0x1d, 0x1e, 0x1f, 0x20, 0x85, 0xa0,
   0x1680, 0x2000, 0x2001, 0x2002, 0x2003, 0x2004, 0x2005, 0x2006, 0x2007,
   0x2008, 0x2009, 0x200a, 0x2028, 0x2029, 0x202f, 0x205f, 0x3000]

/-- Python whitespace test: `str.isspace` on one character. -/
def isPySpace (c : Char) : Bool :=
  pySpaceCodes.contains c.toNat

/-- Embeds Python `str.strip()`. -/
def pyStrip (s : String) : String :=
  ⟨((s.data.dropWhile isPySpace).reverse.dropWhile isPySpace).reverse⟩

/-- The URL-list parsing of `main`: split the input line on commas, strip
each entry, discard empty entries. -/
def parseUrls (line : String) : List String :=
  ((line.splitOn ",").map pyStrip).filter (fun u => u != "")

/-- The driver loop of `main`: fetch each URL in order, threading the
directory state; `envs u` is the environment (response, filesystem
behaviour) the world presents for URL `u`. -/
def processUrls (md5 : Bytes → Nat) (U : UnicodeData) (envs : String → Env) :
    List String → List FileEntry → List Outcome × List FileEntry
  | [], dir => ([], dir)
  | u :: rest, dir =>
    let p := fetch_image md5 U (envs u) u dir
    let q := processUrls md5 U envs rest p.2
    (p.1 :: q.1, q.2)

/-- Embeds `main` acting on one input line. -/
def mainRun (md5 : Bytes → Nat) (U : UnicodeData) (envs : String → Env)
    (line : String) (dir : List FileEntry) : List Outcome × List FileEntry :=
  processUrls md5 U envs (parseUrls line) dir

/-- A concrete hash function used to instantiate the abstract `md5`
parameter in witnesses and counterexamples. -/
def hashInst : Bytes → Nat :=
  fun b => b.foldl (fun a x => a * 256 + (x + 1)) 0

/-- A concrete instance of the abstract Unicode verdicts, used to
instantiate `UnicodeData` in witnesses and counterexamples; their inputs
have ASCII, bracket-free netlocs (or fail before either verdict is
consulted), so any instance yields the true CPython behaviour there. -/
def udataInst : UnicodeData :=
  ⟨fun _ => false, fun _ => false⟩

/-- The directory invariant of the specification: no two stored files share
a filename, and no two stored files share a content hash. -/
def dirInvariant (md5 : Bytes → Nat) (dir : List FileEntry) : Prop :=
  (dir.map (fun e => e.name)).Nodup ∧ (dir.map (fun e => md5 e.content)).Nodup

/-! ### Properties of the decimal rendering -/

theorem natDigits_lt {n : Nat} (h : n < 10) : natDigits n = [Nat.digitChar n] := by
  rw [natDigits]
  simp [h]

theorem natDigits_ge {n : Nat} (h : ¬ n < 10) :
    natDigits n = natDigits (n / 10) ++ [Nat.digitChar (n % 10)] := by
  conv_lhs => rw [natDigits]
  simp [h]

theorem natDigits_ne_nil (n : Nat) : natDigits n ≠ [] := by
  by_cases h : n < 10
  · rw [natDigits_lt h]; simp
  · rw [natDigits_ge h]; simp

theorem digitChar_inj10 : ∀ a < 10, ∀ b < 10, Nat.digitChar a = Nat.digitChar b → a = b := by
  decide

theorem natDigits_inj : ∀ m n : Nat, natDigits m = natDigits n → m = n := by
  intro m
  induction m using Nat.strong_induction_on with
  | _ m ih =>
    intro n h
    by_cases hm : m < 10
    · by_cases hn : n < 10
      · rw [natDigits_lt hm, natDigits_lt hn] at h
        simp only [List.cons.injEq, and_true] at h
        exact digitChar_inj10 m hm n hn h
      · rw [natDigits_lt hm, natDigits_ge hn] at h
        have hlen := congrArg List.length h
        simp only [List.length_cons, List.length_nil, List.length_append] at hlen
        exact absurd (List.length_eq_zero.mp (by omega)) (natDigits_ne_nil (n / 10))
    · by_cases hn : n < 10
      · rw [natDigits_ge hm, natDigits_lt hn] at h
        have hlen := congrArg List.length h
        simp only [List.length_cons, List.length_nil, List.length_append] at hlen
        exact absurd (List.length_eq_zero.mp (by omega)) (natDigits_ne_nil (m / 10))
      · rw [natDigits_ge hm, natDigits_ge hn] at h
        have h2 := congrArg List.reverse h
        simp only [List.reverse_append, List.reverse_cons, List.reverse_nil,
          List.nil_append, List.cons_append, List.cons.injEq, List.reverse_inj] at h2
        obtain ⟨hc, hrest⟩ := h2
        have hmod := digitChar_inj10 (m % 10) (Nat.mod_lt _ (by omega))
          (n % 10) (Nat.mod_lt _ (by omega)) hc
        have hdiv := ih (m / 10) (Nat.div_lt_self (by omega) (by omega)) (n / 10) hrest
        omega

theorem natToStr_inj : ∀ m n : Nat, natToStr m = natToStr n → m = n := by
  intro m n h
  exact natDigits_inj m n (congrArg String.data h)

/-! ### Properties of the probing loop -/

theorem candName_inj (stem ext : String) :
    ∀ k₁ k₂ : Nat, candName stem k₁ ext = candName stem k₂ ext → k₁ = k₂ := by
  intro k₁ k₂ h
  have hd := congrArg String.data h
  simp only [candName, String.data_append] at hd
  have h1 := List.append_cancel_right hd
  have h2 := List.append_cancel_left h1
  exact natToStr_inj k₁ k₂ (by exact congrArg String.mk h2)

theorem candName_exists_free (dirNames : List String) (stem ext : String) :
    ∃ j, j < dirNames.length + 1 ∧ candName stem (1 + j) ext ∉ dirNames := by
  by_contra hcon
  push_neg at hcon
  have hinj : Function.Injective (fun j : Nat => candName stem (1 + j) ext) := by
    intro a b hab
    have := candName_inj stem ext (1 + a) (1 + b) hab
    omega
  have hsub : (Finset.range (dirNames.length + 1)).image
      (fun j => candName stem (1 + j) ext) ⊆ dirNames.toFinset := by
    intro s hs
    rw [Finset.mem_image] at hs
    obtain ⟨j, hj, rfl⟩ := hs
    rw [List.mem_toFinset]
    exact hcon j (Finset.mem_range.mp hj)
  have hcard1 : ((Finset.range (dirNames.length + 1)).image
      (fun j => candName stem (1 + j) ext)).card = dirNames.length + 1 := by
    rw [Finset.card_image_of_injective _ hinj, Finset.card_range]
  have hcard2 := Finset.card_le_card hsub
  have hcard3 := List.toFinset_card_le dirNames
  omega

theorem probeFrom_spec (dirNames : List String) (stem ext : String) :
    ∀ fuel counter, (∃ j, j < fuel ∧ candName stem (counter + j) ext ∉ dirNames) →
      ∃ j, j < fuel ∧ candName stem (counter + j) ext ∉ dirNames ∧
        (∀ i, i < j → candName stem (counter + i) ext ∈ dirNames) ∧
        probeFrom dirNames stem ext counter fuel = candName stem (counter + j) ext := by
  intro fuel
  induction fuel with
  | zero =>
    intro counter h
    obtain ⟨j, hj, _⟩ := h
    omega
  | succ fuel ih =>
    intro counter h
    by_cases hc : candName stem counter ext ∈ dirNames
    · obtain ⟨j, hj, hfree⟩ := h
      have hj0 : j ≠ 0 := by
        intro h0
        subst h0
        simp only [Nat.add_zero] at hfree
        exact hfree hc
      obtain ⟨j', rfl⟩ := Nat.exists_eq_succ_of_ne_zero hj0
      have hex : ∃ i, i < fuel ∧ candName stem (counter + 1 + i) ext ∉ dirNames := by
        refine ⟨j', by omega, ?_⟩
        have harith : counter + 1 + j' = counter + (j' + 1) := by omega
        rw [harith]
        exact hfree
      obtain ⟨i, hi, hifree, himin, heq⟩ := ih (counter + 1) hex
      have harith2 : counter + 1 + i = counter + (i + 1) := by omega
      rw [harith2] at heq hifree
      refine ⟨i + 1, by omega, hifree, ?_, ?_⟩
      · intro k hk
        cases k with
        | zero => simpa using hc
        | succ k' =>
          have harith3 : counter + (k' + 1) = counter + 1 + k' := by omega
          rw [harith3]
          exact himin k' (by omega)
      · have hstep : probeFrom dirNames stem ext counter (fuel + 1) =
            probeFrom dirNames stem ext (counter + 1) fuel := by
          simp [probeFrom, hc]
        rw [hstep, heq]
    · refine ⟨0, by omega, by simpa using hc, by omega, ?_⟩
      simp [probeFrom, hc]

theorem safe_filename_free (dirNames : List String) (filename : String) :
    safe_filename dirNames filename ∉ dirNames := by
  by_cases h : filename ∈ dirNames
  · simp only [safe_filename, if_pos h]
    obtain ⟨j, hj, hfree⟩ := candName_exists_free dirNames (splitext filename).1 (splitext filename).2
    obtain ⟨i, _, hifree, _, heq⟩ :=
      probeFrom_spec dirNames (splitext filename).1 (splitext filename).2
        (dirNames.length + 1) 1 ⟨j, hj, hfree⟩
    rw [heq]
    exact hifree
  · simp [safe_filename, h]

/-! ### Properties of the duplicate scan -/

theorem scan_no_dup (md5 : Bytes → Nat) (h : Nat) :
    ∀ dir : List FileEntry, (∀ e ∈ dir, e.readErr = none) →
      (∀ e ∈ dir, h ≠ md5 e.content) →
      scanForDuplicate md5 h dir = .ok false := by
  intro dir
  induction dir with
  | nil => intro _ _; rfl
  | cons e rest ih =>
    intro hr hn
    have he := hr e (by simp)
    have hne := hn e (by simp)
    simp only [scanForDuplicate, he, if_neg hne]
    exact ih (fun x hx => hr x (by simp [hx])) (fun x hx => hn x (by simp [hx]))

theorem scan_false_no_match (md5 : Bytes → Nat) (h : Nat) :
    ∀ dir : List FileEntry, scanForDuplicate md5 h dir = .ok false →
      ∀ e ∈ dir, e.readErr = none ∧ h ≠ md5 e.content := by
  intro dir
  induction dir with
  | nil => intro _ e he; simp at he
  | cons a rest ih =>
    intro hscan e he
    cases ha : a.readErr with
    | some m => simp [scanForDuplicate, ha] at hscan
    | none =>
      simp only [scanForDuplicate, ha] at hscan
      by_cases hm : h = md5 a.content
      · simp [hm] at hscan
      · simp only [if_neg hm] at hscan
        rcases List.mem_cons.mp he with rfl | hmem
        · exact ⟨ha, hm⟩
        · exact ih hscan e hmem

/-! ### Claims -/

/-- Claim C2: if the filename is not present in the directory,
`safe_filename` returns it unchanged; otherwise it returns `stem_N.ext`
where `N` is the smallest positive integer whose candidate is not present,
stem and extension being the `splitext` of the filename. -/
theorem safe_filename_collision_resolution (dirNames : List String) (filename : String) :
    (filename ∉ dirNames → safe_filename dirNames filename = filename) ∧
    (filename ∈ dirNames → ∃ N, 0 < N ∧
      candName (splitext filename).1 N (splitext filename).2 ∉ dirNames ∧
      (∀ m, 0 < m → m < N →
        candName (splitext filename).1 m (splitext filename).2 ∈ dirNames) ∧
      safe_filename dirNames filename =
        candName (splitext filename).1 N (splitext filename).2) := by
  constructor
  · intro h
    simp [safe_filename, h]
  · intro h
    simp only [safe_filename, if_pos h]
    obtain ⟨j, hj, hfree⟩ :=
      candName_exists_free dirNames (splitext filename).1 (splitext filename).2
    obtain ⟨i, hi, hifree, himin, heq⟩ :=
      probeFrom_spec dirNames (splitext filename).1 (splitext filename).2
        (dirNames.length + 1) 1 ⟨j, hj, hfree⟩
    refine ⟨1 + i, by omega, hifree, ?_, heq⟩
    intro m hm0 hmN
    have hm : m = 1 + (m - 1) := by omega
    rw [hm]
    exact himin (m - 1) (by omega)

/-- Witness for claim C2: a free name passes through unchanged, and a
colliding `x.jpg` gets the smallest free integer suffix. -/
theorem safe_filename_collision_resolution_witness :
    safe_filename [] "y.png" = "y.png" ∧
    ∃ N, 0 < N ∧ candName "x" N ".jpg" ∉ ["x.jpg"] ∧
      (∀ m, 0 < m → m < N → candName "x" m ".jpg" ∈ ["x.jpg"]) ∧
      safe_filename ["x.jpg"] "x.jpg" = candName "x" N ".jpg" := by
  constructor
  · exact (safe_filename_collision_resolution [] "y.png").1 (by simp)
  · exact (safe_filename_collision_resolution ["x.jpg"] "x.jpg").2 (by simp)

/-- Claim C10: the probing loop of `safe_filename` terminates on every finite
directory: some positive suffix yields an unused candidate name, and
`safe_filename` totally computes a name that is not in the directory. -/
theorem safe_filename_terminates (dirNames : List String) (filename : String) :
    (∃ N, 0 < N ∧
      candName (splitext filename).1 N (splitext filename).2 ∉ dirNames) ∧
    safe_filename dirNames filename ∉ dirNames := by
  constructor
  · obtain ⟨j, hj, hfree⟩ :=
      candName_exists_free dirNames (splitext filename).1 (splitext filename).2
    exact ⟨1 + j, by omega, hfree⟩
  · exact safe_filename_free dirNames filename

/-- Claim C4: `fetch_image` never raises: for every environment, URL and
directory, either the body runs to an outcome which is returned unchanged,
or the body raises and the exception is converted into the matching failure
outcome (connection error for `RequestException`, unexpected error
otherwise) with the directory untouched. -/
theorem fetch_image_never_raises (md5 : Bytes → Nat) (U : UnicodeData) (env : Env) (url : String)
    (dir : List FileEntry) :
    (∃ res, fetch_image_body md5 U env url dir = .ok res ∧
      fetch_image md5 U env url dir = res) ∨
    (∃ msg, fetch_image_body md5 U env url dir = .error (.requestException msg) ∧
      fetch_image md5 U env url dir = (.connectionError url msg, dir)) ∨
    (∃ msg, fetch_image_body md5 U env url dir = .error (.otherException msg) ∧
      fetch_image md5 U env url dir = (.unexpectedError msg, dir)) := by
  cases hb : fetch_image_body md5 U env url dir with
  | ok res => exact Or.inl ⟨res, rfl, by simp [fetch_image, hb]⟩
  | error e =>
    cases e with
    | requestException m => exact Or.inr (Or.inl ⟨m, rfl, by simp [fetch_image, hb]⟩)
    | otherException m => exact Or.inr (Or.inr ⟨m, rfl, by simp [fetch_image, hb]⟩)

/-- Claim C9: the driver splits the input line on commas, strips each entry,
discards empty entries, and invokes the fetch pipeline once per remaining
URL strictly in input order, threading the directory state; every URL
produces exactly one outcome, so no failure or skip stops the loop. -/
theorem main_processes_urls_in_order (md5 : Bytes → Nat) (U : UnicodeData) (envs : String → Env)
    (line : String) (dir : List FileEntry) :
    parseUrls line = ((line.splitOn ",").map pyStrip).filter (fun u => u != "") ∧
    (mainRun md5 U envs line dir).1.length = (parseUrls line).length ∧
    (∀ u rest d, processUrls md5 U envs (u :: rest) d =
      ((fetch_image md5 U (envs u) u d).1 ::
        (processUrls md5 U envs rest (fetch_image md5 U (envs u) u d).2).1,
       (processUrls md5 U envs rest (fetch_image md5 U (envs u) u d).2).2)) := by
  refine ⟨rfl, ?_, ?_⟩
  · show (processUrls md5 U envs (parseUrls line) dir).1.length = (parseUrls line).length
    generalize parseUrls line = us
    induction us generalizing dir with
    | nil => rfl
    | cons u rest ih => simp [processUrls, ih]
  · intro u rest d
    rfl

/-- Claim C1: a 200 response with an `image/…` content type and body `B`,
fetched into a directory whose files are readable and none of which has the
hash of `B`, is saved: the outcome is `saved` and a file with the
collision-resolved name and contents exactly `B` is appended. -/
theorem fetch_image_saves_new_image (md5 : Bytes → Nat) (U : UnicodeData) (env : Env) (url : String)
    (dir : List FileEntry) (r : HttpResponse) (fname₀ : String)
    (hmk : env.makedirsOk = true)
    (hresp : env.response = .ok r)
    (hstatus : r.status = 200)
    (himg : strStartsWith (r.contentType.getD "") "image/" = true)
    (hname : get_filename_from_url U url = .ok fname₀)
    (hread : ∀ e ∈ dir, e.readErr = none)
    (hnodup : ∀ e ∈ dir, md5 e.content ≠ md5 r.content)
    (hwrite : env.writeOk = true) :
    fetch_image md5 U env url dir =
      (.saved (safe_filename (dir.map (fun e => e.name)) fname₀),
       dir ++ [⟨safe_filename (dir.map (fun e => e.name)) fname₀, r.content, none⟩]) := by
  have hscan : scanForDuplicate md5 (md5 r.content) dir = .ok false :=
    scan_no_dup md5 (md5 r.content) dir hread (fun e he => (hnodup e he).symm)
  have hst : ¬(400 ≤ r.status ∧ r.status < 600) := by omega
  simp [fetch_image, fetch_image_body, hmk, hresp, hst, himg, hname, hscan, hwrite]

/-- Witness for claim C1 at a concrete 200 `image/png` response fetched into
an empty directory. -/
theorem fetch_image_saves_new_image_witness :
    fetch_image hashInst udataInst ⟨true, .ok ⟨200, some "image/png", [1, 2, 3]⟩, true⟩
        "http://example.com/pic.png" [] =
      (.saved "pic.png", [⟨"pic.png", [1, 2, 3], none⟩]) := by
  have h := fetch_image_saves_new_image hashInst udataInst
    ⟨true, .ok ⟨200, some "image/png", [1, 2, 3]⟩, true⟩
    "http://example.com/pic.png" [] ⟨200, some "image/png", [1, 2, 3]⟩ "pic.png"
    rfl rfl rfl (by decide) (by decide) (by simp) (by simp) rfl
  simpa [safe_filename] using h

/-- Claim C5: fetching the same URL twice with the same successful image
response, starting from an empty directory, saves once and then skips the
second fetch as a duplicate, leaving exactly one file. -/
theorem fetch_image_idempotent (md5 : Bytes → Nat) (U : UnicodeData) (env : Env) (url : String)
    (r : HttpResponse) (fname₀ : String)
    (hmk : env.makedirsOk = true)
    (hresp : env.response = .ok r)
    (hstatus : r.status = 200)
    (himg : strStartsWith (r.contentType.getD "") "image/" = true)
    (hname : get_filename_from_url U url = .ok fname₀)
    (hwrite : env.writeOk = true) :
    fetch_image md5 U env url [] = (.saved fname₀, [⟨fname₀, r.content, none⟩]) ∧
    fetch_image md5 U env url [⟨fname₀, r.content, none⟩] =
      (.skippedDuplicate (safe_filename [fname₀] fname₀),
       [⟨fname₀, r.content, none⟩]) ∧
    ([(⟨fname₀, r.content, none⟩ : FileEntry)]).length = 1 := by
  have hst : ¬(400 ≤ r.status ∧ r.status < 600) := by omega
  refine ⟨?_, ?_, rfl⟩
  · simp [fetch_image, fetch_image_body, hmk, hresp, hst, himg, hname, hwrite,
      scanForDuplicate, safe_filename]
  · simp [fetch_image, fetch_image_body, hmk, hresp, hst, himg, hname,
      scanForDuplicate]

/-- Witness for claim C5 at a concrete 200 `image/png` response. -/
theorem fetch_image_idempotent_witness :
    fetch_image hashInst udataInst ⟨true, .ok ⟨200, some "image/png", [1, 2, 3]⟩, true⟩
        "http://example.com/pic.png" [] =
      (.saved "pic.png", [⟨"pic.png", [1, 2, 3], none⟩]) ∧
    fetch_image hashInst udataInst ⟨true, .ok ⟨200, some "image/png", [1, 2, 3]⟩, true⟩
        "http://example.com/pic.png" [⟨"pic.png", [1, 2, 3], none⟩] =
      (.skippedDuplicate (safe_filename ["pic.png"] "pic.png"),
       [⟨"pic.png", [1, 2, 3], none⟩]) ∧
    ([(⟨"pic.png", [1, 2, 3], none⟩ : FileEntry)]).length = 1 :=
  fetch_image_idempotent hashInst udataInst ⟨true, .ok ⟨200, some "image/png", [1, 2, 3]⟩, true⟩
    "http://example.com/pic.png" ⟨200, some "image/png", [1, 2, 3]⟩ "pic.png"
    rfl rfl rfl (by decide) (by decide) rfl

/-- How the directory can change across one successful body run: either it
is untouched, or the duplicate scan cleared the content and a file with a
fresh name was appended. -/
theorem fetch_image_body_dir (md5 : Bytes → Nat) (U : UnicodeData) (env : Env)
    (url : String) (dir : List FileEntry) (o : Outcome) (d₂ : List FileEntry)
    (h : fetch_image_body md5 U env url dir = .ok (o, d₂)) :
    d₂ = dir ∨
    ∃ r fname, env.response = .ok r ∧
      scanForDuplicate md5 (md5 r.content) dir = .ok false ∧
      fname ∉ dir.map (fun e => e.name) ∧
      d₂ = dir ++ [⟨fname, r.content, none⟩] := by
  by_cases hmk : env.makedirsOk = false
  · simp [fetch_image_body, hmk] at h
  · cases hr : env.response with
    | error m => simp [fetch_image_body, hmk, hr] at h
    | ok r =>
      by_cases hst : 400 ≤ r.status ∧ r.status < 600
      · simp [fetch_image_body, hmk, hr, hst] at h
      · by_cases hct : strStartsWith (r.contentType.getD "") "image/" = false
        · simp [fetch_image_body, hmk, hr, hst, hct] at h
          exact Or.inl h.2.symm
        · cases hn : get_filename_from_url U url with
          | error m => simp [fetch_image_body, hmk, hr, hst, hct, hn] at h
          | ok fname₀ =>
            cases hs : scanForDuplicate md5 (md5 r.content) dir with
            | error e => simp [fetch_image_body, hmk, hr, hst, hct, hn, hs] at h
            | ok b =>
              cases b with
              | true =>
                simp [fetch_image_body, hmk, hr, hst, hct, hn, hs] at h
                exact Or.inl h.2.symm
              | false =>
                by_cases hw : env.writeOk = false
                · simp [fetch_image_body, hmk, hr, hst, hct, hn, hs, hw] at h
                · simp [fetch_image_body, hmk, hr, hst, hct, hn, hs, hw] at h
                  exact Or.inr ⟨r, safe_filename (dir.map (fun e => e.name)) fname₀,
                    rfl, hs, safe_filename_free _ _, h.2.symm⟩

/-- Claim C6: every `fetch_image` call preserves the directory invariant
(pairwise distinct filenames and pairwise distinct content hashes), for
every URL and every response. -/
theorem fetch_image_preserves_invariant (md5 : Bytes → Nat) (U : UnicodeData) (env : Env)
    (url : String) (dir : List FileEntry) (hinv : dirInvariant md5 dir) :
    dirInvariant md5 (fetch_image md5 U env url dir).2 := by
  cases hb : fetch_image_body md5 U env url dir with
  | error e =>
    have hdir : (fetch_image md5 U env url dir).2 = dir := by
      cases e <;> simp [fetch_image, hb]
    rw [hdir]
    exact hinv
  | ok res =>
    have hres : fetch_image md5 U env url dir = res := by simp [fetch_image, hb]
    rw [hres]
    obtain ⟨o, d₂⟩ := res
    rcases fetch_image_body_dir md5 U env url dir o d₂ hb with
      hsame | ⟨r, fname, _, hscan, hnotmem, hd₂⟩
    · show dirInvariant md5 d₂
      rw [hsame]
      exact hinv
    · show dirInvariant md5 d₂
      rw [hd₂]
      obtain ⟨hn, hh⟩ := hinv
      constructor
      · simp only [List.map_append, List.map_cons, List.map_nil]
        rw [List.nodup_append]
        refine ⟨hn, List.nodup_singleton _, ?_⟩
        intro a ha hb₂
        simp only [List.mem_singleton] at hb₂
        subst hb₂
        exact hnotmem ha
      · simp only [List.map_append, List.map_cons, List.map_nil]
        rw [List.nodup_append]
        refine ⟨hh, List.nodup_singleton _, ?_⟩
        intro a ha hb₂
        simp only [List.mem_singleton] at hb₂
        subst hb₂
        rw [List.mem_map] at ha
        obtain ⟨e, he, hae⟩ := ha
        exact (scan_false_no_match md5 (md5 r.content) dir hscan e he).2 hae.symm

/-- Witness for claim C6: the invariant holds of the empty directory and is
preserved by a concrete saving fetch. -/
theorem fetch_image_preserves_invariant_witness :
    dirInvariant hashInst
      (fetch_image hashInst udataInst ⟨true, .ok ⟨200, some "image/png", [1, 2, 3]⟩, true⟩
        "http://example.com/pic.png" []).2 :=
  fetch_image_preserves_invariant hashInst udataInst
    ⟨true, .ok ⟨200, some "image/png", [1, 2, 3]⟩, true⟩
    "http://example.com/pic.png" [] (by simp [dirInvariant])

/-- Claim C7 (amended): when directory creation and the HTTP request succeed
and the status does not raise, a response whose `Content-Type` (defaulting
to the empty string when the header is missing) does not begin with
`image/` yields the `skippedNotImage` outcome with the directory
unchanged. -/
theorem fetch_skips_non_image (md5 : Bytes → Nat) (U : UnicodeData) (env : Env) (url : String)
    (dir : List FileEntry) (r : HttpResponse)
    (hmk : env.makedirsOk = true)
    (hresp : env.response = .ok r)
    (hstatus : ¬(400 ≤ r.status ∧ r.status < 600))
    (hnotimg : strStartsWith (r.contentType.getD "") "image/" = false) :
    fetch_image md5 U env url dir = (.skippedNotImage url (r.contentType.getD ""), dir) := by
  simp [fetch_image, fetch_image_body, hmk, hresp, hstatus, hnotimg]

/-- Witness for claim C7 at a response with a missing `Content-Type` header,
read as the empty string. -/
theorem fetch_skips_non_image_witness :
    fetch_image hashInst udataInst ⟨true, .ok ⟨200, none, [1]⟩, true⟩
        "http://example.com/a" [] =
      (.skippedNotImage "http://example.com/a" "", []) :=
  fetch_skips_non_image hashInst udataInst ⟨true, .ok ⟨200, none, [1]⟩, true⟩
    "http://example.com/a" [] ⟨200, none, [1]⟩ rfl rfl (by decide) (by decide)

/-- Counterexample to claim C7 as stated: a `text/html` response with status
404 makes `raise_for_status` raise first, so the outcome is the
connection-error failure, not `skippedNotImage`. -/
theorem fetch_non_image_counterexample :
    fetch_image hashInst udataInst ⟨true, .ok ⟨404, some "text/html", []⟩, true⟩
        "http://example.com/a" [] =
      (.connectionError "http://example.com/a" "HTTP error for http://example.com/a", []) ∧
    (fetch_image hashInst udataInst ⟨true, .ok ⟨404, some "text/html", []⟩, true⟩
        "http://example.com/a" []).1 ≠
      .skippedNotImage "http://example.com/a" "text/html" := by
  constructor
  · decide
  · decide

/-- Claim C3 (amended): when a file cannot be read during the duplicate
scan, the exception aborts the whole fetch: it propagates to the catch-all
handler, which reports the unexpected-error failure, and the directory is
unchanged — the scan is not resumed. -/
theorem fetch_aborts_on_scan_read_error (md5 : Bytes → Nat) (U : UnicodeData) (env : Env)
    (url : String) (dir : List FileEntry) (r : HttpResponse) (fname₀ msg : String)
    (hmk : env.makedirsOk = true)
    (hresp : env.response = .ok r)
    (hstatus : ¬(400 ≤ r.status ∧ r.status < 600))
    (himg : strStartsWith (r.contentType.getD "") "image/" = true)
    (hname : get_filename_from_url U url = .ok fname₀)
    (hscan : scanForDuplicate md5 (md5 r.content) dir = .error (.otherException msg)) :
    fetch_image md5 U env url dir = (.unexpectedError msg, dir) := by
  simp [fetch_image, fetch_image_body, hmk, hresp, hstatus, himg, hname, hscan]

/-- Witness for claim C3 at a directory whose single file is unreadable. -/
theorem fetch_aborts_on_scan_read_error_witness :
    fetch_image hashInst udataInst ⟨true, .ok ⟨200, some "image/png", [1, 2, 3]⟩, true⟩
        "http://example.com/pic.png" [⟨"a.jpg", [9], some "Permission denied"⟩] =
      (.unexpectedError "Permission denied", [⟨"a.jpg", [9], some "Permission denied"⟩]) :=
  fetch_aborts_on_scan_read_error hashInst udataInst
    ⟨true, .ok ⟨200, some "image/png", [1, 2, 3]⟩, true⟩
    "http://example.com/pic.png" [⟨"a.jpg", [9], some "Permission denied"⟩]
    ⟨200, some "image/png", [1, 2, 3]⟩ "pic.png" "Permission denied"
    rfl rfl (by decide) (by decide) (by decide) (by decide)

/-- Counterexample to claim C3 as stated: with an unreadable first file and
a readable, non-duplicate second file, the fetch aborts with the
unexpected-error outcome instead of skipping the unreadable file,
continuing the scan and saving. -/
theorem scan_read_error_counterexample :
    fetch_image hashInst udataInst ⟨true, .ok ⟨200, some "image/png", [1, 2, 3]⟩, true⟩
        "http://example.com/pic.png"
        [⟨"a.jpg", [9], some "Permission denied"⟩, ⟨"b.jpg", [8], none⟩] =
      (.unexpectedError "Permission denied",
       [⟨"a.jpg", [9], some "Permission denied"⟩, ⟨"b.jpg", [8], none⟩]) ∧
    (fetch_image hashInst udataInst ⟨true, .ok ⟨200, some "image/png", [1, 2, 3]⟩, true⟩
        "http://example.com/pic.png"
        [⟨"a.jpg", [9], some "Permission denied"⟩, ⟨"b.jpg", [8], none⟩]).1 ≠
      .saved "pic.png" := by
  constructor
  · decide
  · decide

/-- Claim C8 (amended): whenever `urlparse` returns a result for the URL,
`get_filename_from_url` returns the last segment of the parsed path, or the
fallback `downloaded_image.jpg` when that segment is empty or contains no
dot, and the result is non-empty; `urlparse` raises `ValueError` on some
URLs (for instance a mismatched square bracket in the authority), and then
`get_filename_from_url` fails instead of returning a name. -/
theorem get_filename_spec (U : UnicodeData) (url p : String)
    (h : urlparsePath U url = .ok p) :
    ∃ f, get_filename_from_url U url = .ok f ∧ f ≠ "" ∧
      f = (if basename p = "" ∨ (basename p).data.contains '.' = false
           then "downloaded_image.jpg" else basename p) := by
  unfold get_filename_from_url
  rw [h]
  show ∃ f, (if basename p = "" ∨ (basename p).data.contains '.' = false
      then Except.ok "downloaded_image.jpg" else Except.ok (basename p)) = .ok f ∧ _
  by_cases hc : basename p = "" ∨ (basename p).data.contains '.' = false
  · exact ⟨"downloaded_image.jpg", by rw [if_pos hc], by decide, by rw [if_pos hc]⟩
  · refine ⟨basename p, by rw [if_neg hc], ?_, by rw [if_neg hc]⟩
    intro h0
    exact hc (Or.inl h0)

/-- Witness for claim C8 at a URL whose path has an empty last segment. -/
theorem get_filename_spec_witness :
    ∃ f, get_filename_from_url udataInst "http://example.com/" = .ok f ∧ f ≠ "" ∧
      f = (if basename "/" = "" ∨ (basename "/").data.contains '.' = false
           then "downloaded_image.jpg" else basename "/") :=
  get_filename_spec udataInst "http://example.com/" "/" (by decide)

/-- Counterexample to claim C8 as stated: `urlparse` raises `ValueError` on
a URL with a mismatched bracket in its authority, so `get_filename_from_url`
fails instead of returning a non-empty name.  (The mismatched-bracket branch
precedes both abstracted Unicode verdicts, so the concrete `udataInst` is
immaterial to this result.) -/
theorem get_filename_counterexample :
    get_filename_from_url udataInst "http://[abc/pic.jpg" = .error "Invalid IPv6 URL" := by
  decide
